import Mathlib

/-!
Verification of the xhi-backend ingestion and rendering pipeline
(`src/app/routers/books.py`, `src/app/models.py`, `src/app/schemas.py`).

The Python handlers are shallowly embedded as pure Lean functions over an
explicit application state `St` that models the relational ledger (books,
chapters, progress rows) and the content-addressed filesystem (vault
directories keyed by digest, files keyed by path components).  Filesystem
paths are modelled as lists of path components; rendering Python's
`str(Path(...))` and `str.startswith` is modelled on the character sequence
of the rendered path, matching POSIX path strings.  Chapter HTML is
abstracted to the features the handlers inspect (viewport presence, the
`img src` and `image href` attribute lists).
-/

namespace XhiBackend

/-- Mirrors the `Book` ORM model (`models.py`): id, owner, title, the vault
file path, optional cover path, optional unpacked-directory path, content
hash and byte size.  Paths are stored as lists of path components. -/
structure Book where
  id : Nat
  ownerId : Nat
  title : String
  filePath : List String
  coverPath : Option (List String)
  unpackedPath : Option (List String)
  fileHash : String
  fileSize : Nat
  deriving DecidableEq, Repr

/-- Mirrors the `Chapter` ORM model (`models.py`). -/
structure Chapter where
  id : Nat
  bookId : Nat
  title : String
  order : Nat
  fileName : String
  sizeBytes : Nat
  deriving DecidableEq, Repr

/-- Mirrors the `UserBookProgress` ORM model (`models.py`); the float
`progress_percent` column is modelled as a rational number.  The
`last_read_at` timestamp is not modelled (no claim depends on it). -/
structure Progress where
  userId : Nat
  bookId : Nat
  chapterIndex : Int
  progressPercent : Rat
  deriving DecidableEq, Repr

/-- The features of a stored chapter HTML file that `get_content` inspects:
whether a viewport meta tag is present, and the `src`/`href` attribute values
of its `img` and `image` elements, in document order. -/
structure ChapterHtml where
  hasViewport : Bool
  imgSrcs : List String
  imageHrefs : List String
  deriving DecidableEq, Repr

/-- The application state seen by the handlers: the ledger tables plus the
on-disk content store.  `vaults` lists the digests whose vault directory
`objects/<digest>` exists; `files` maps chapter-file paths to their parsed
HTML; `disk` lists the (resolved) paths that exist on disk for the image
gateway's existence check.  `nextBookId`/`nextChapterId` model primary-key
assignment on insert. -/
structure St where
  books : List Book
  chapters : List Chapter
  progresses : List Progress
  vaults : List String
  files : List (List String × ChapterHtml)
  disk : List (List String)
  nextBookId : Nat
  nextChapterId : Nat
  deriving DecidableEq, Repr

/-! ### String primitives

Python strings are sequences of characters; the Python string operations
the handlers use (`str.lower`, `str.endswith`, `str.startswith`,
`str.split`, slicing) are embedded as structurally recursive functions on
the character list of a Lean `String`. -/

/-- ASCII lowercasing of one character (`str.lower` on the ASCII range the
file extensions use). -/
def charLower (c : Char) : Char :=
  if 65 ≤ c.toNat ∧ c.toNat ≤ 90 then Char.ofNat (c.toNat + 32) else c

/-- Python's `str.lower`. -/
def lowerStr (s : String) : String :=
  ⟨s.data.map charLower⟩

/-- Python's `str.endswith`. -/
def strEndsWith (s suf : String) : Bool :=
  suf.data.isSuffixOf s.data

/-- Python's `str.split(sep)` for a one-character separator, on character
lists: always returns at least one piece, and pieces never contain the
separator. -/
def splitOnChar (sep : Char) : List Char → List (List Char)
  | [] => [[]]
  | c :: rest =>
      let r := splitOnChar sep rest
      if c = sep then [] :: r
      else
        match r with
        | [] => [[c]]
        | h :: t => (c :: h) :: t

/-- Python's `s.split('/')[-1]`: the piece after the final slash. -/
def lastSegment (s : String) : String :=
  ⟨(splitOnChar '/' s.data).getLastD []⟩

/-! ### Path helpers (POSIX semantics used by the handlers) -/

/-- Python's `os.path.basename` for POSIX: everything after the final
slash. -/
def basename (name : String) : String :=
  lastSegment name

/-- Lexical canonicalization of a component list, as performed by
`Path.resolve()` on a symlink-free tree: drops empty and `.` components and
lets `..` consume the preceding component. -/
def resolveComponents (cs : List String) : List String :=
  cs.foldl
    (fun acc c =>
      if c = "" then acc
      else if c = "." then acc
      else if c = ".." then acc.dropLast
      else acc ++ [c])
    []

/-- Renders an absolute path from its components, as `str(Path(...))` does
for a path rooted at the storage root. -/
def renderPath (cs : List String) : String :=
  cs.foldl (fun acc c => acc ++ "/" ++ c) ""

/-- Python's `str.startswith`: prefix test on the character sequence. -/
def strStartsWith (s pre : String) : Bool :=
  pre.data.isPrefixOf s.data

/-- `Path.exists()`: membership of the canonicalized path in the set of
paths present on disk. -/
def pathExists (st : St) (p : List String) : Bool :=
  st.disk.contains (resolveComponents p)

/-! ### ArchiveParser (`unpack_and_parse_epub`, `find_epub_cover`) -/

/-- Outcome of one cover-resolution strategy inside `find_epub_cover`:
it extracts a cover, finds nothing, or raises an exception. -/
inductive PlanOutcome
  | found
  | notFound
  | raises
  deriving DecidableEq, Repr

/-- One entry of the EPUB spine as `unpack_and_parse_epub` observes it:
`get_item_with_id` yields a document item (with the text of its first
`h1`/`h2`/`h3` heading, if any, and the byte size of the rewritten HTML),
a non-document item, or nothing. -/
inductive SpineItem
  | document (heading : Option String) (sizeBytes : Nat)
  | nonDocument
  | missing
  deriving DecidableEq, Repr

/-- Whether a spine entry resolves to an `ITEM_DOCUMENT`. -/
def isDocumentItem : SpineItem → Bool
  | .document _ _ => true
  | _ => false

/-- An EPUB archive abstracted to what the parser observes: whether the
zip container opens, the outcome of each cover strategy, whether each
side-effecting parse step succeeds, and the spine. -/
structure EpubArchive where
  zipOpenOk : Bool
  planA : PlanOutcome
  planB : PlanOutcome
  planC : PlanOutcome
  readEpubOk : Bool
  imageWriteOk : Bool
  chapterWriteOk : Bool
  spine : List SpineItem
  deriving DecidableEq, Repr

/-- `enumerate` from a given start index. -/
def withIndexFrom (n : Nat) : List α → List (Nat × α)
  | [] => []
  | a :: as => (n, a) :: withIndexFrom (n + 1) as

/-- The per-spine-entry body of the chapter loop in `unpack_and_parse_epub`:
non-document and unresolvable entries are skipped (`continue`); a document
at spine position `i` yields a chapter dict with `order = i`, file name
`chapter_{i}.html`, and a title from the first heading (truncated to 100
characters) or the synthesized `Chapter {i+1}`. -/
structure ChapterData where
  title : String
  fileName : String
  order : Nat
  sizeBytes : Nat
  deriving DecidableEq, Repr

def spineStep : Nat × SpineItem → Option ChapterData
  | (i, .document heading size) =>
      some
        { title :=
            match heading with
            | some h => ⟨h.data.take 100⟩
            | none =>
                let n := i + 1
                s!"Chapter {n}"
          fileName := s!"chapter_{i}.html"
          order := i
          sizeBytes := size }
  | _ => none

/-- The chapter-processing loop of `unpack_and_parse_epub` (step 4). -/
def processSpine (spine : List SpineItem) : List ChapterData :=
  (withIndexFrom 0 spine).filterMap spineStep

/-- `find_epub_cover`: Plan A (manifest metadata), Plan B (first-spine-page
scan) and Plan C (filename heuristic) are tried in order inside one
`zipfile.ZipFile` context.  Plans A and B each swallow their own exceptions
and fall through; an exception in Plan C (or a zip that cannot be opened)
lands in the outer handler, which returns `None`.  A found cover is written
to `cover.jpg` under `unpackDir` and its path returned. -/
def find_epub_cover (ar : EpubArchive) (unpackDir : List String) :
    Option (List String) :=
  if ar.zipOpenOk then
    match ar.planA with
    | .found => some (unpackDir ++ ["cover.jpg"])
    | _ =>
      match ar.planB with
      | .found => some (unpackDir ++ ["cover.jpg"])
      | _ =>
        match ar.planC with
        | .found => some (unpackDir ++ ["cover.jpg"])
        | _ => none
  else none

/-- `unpack_and_parse_epub`: the whole body is wrapped in one
`try/except` returning `([], None)` if any step raises
(`epub.read_epub`, image extraction, or chapter writing);
`find_epub_cover` itself never raises.  On success it returns the chapter
dicts from the spine loop and the cover path. -/
def unpack_and_parse_epub (ar : EpubArchive) (vaultPath : List String) :
    List ChapterData × Option (List String) :=
  if ar.readEpubOk && ar.imageWriteOk && ar.chapterWriteOk then
    (processSpine ar.spine, find_epub_cover ar vaultPath)
  else ([], none)

/-! ### Upload orchestration (`upload_book`) -/

/-- `MAX_STORAGE_BYTES` from `books.py`. -/
def MAX_STORAGE_BYTES : Nat := 1024 * 1024 * 1024

/-- `get_user_storage_usage`: sum of `file_size` over the owner's books. -/
def get_user_storage_usage (userId : Nat) (books : List Book) : Nat :=
  (books.filter (fun b => b.ownerId == userId)).foldl
    (fun acc b => acc + b.fileSize) 0

/-- The inputs of one `upload_book` request: the caller's identity, the
uploaded file's name, its content digest and size (from
`calculate_file_hash_and_size`), the archive contents, and whether the
side-effecting copy / PDF steps inside the handler's `try` block succeed. -/
structure UploadInput where
  ownerId : Nat
  fileName : String
  fileHash : String
  fileSize : Nat
  archive : EpubArchive
  copyOk : Bool
  pdfOpenOk : Bool
  pdfPageCount : Nat
  deriving DecidableEq, Repr

/-- The HTTP outcomes of `upload_book`. -/
inductive UploadResult
  | invalidInput
  | quotaExceeded
  | duplicateBook
  | processingFailed
  | created (bookId : Nat)
  deriving DecidableEq, Repr

/-- The commit tail of `upload_book`: insert the new `Book` row, then insert
one `Chapter` row per chapter dict (in list order), assigning fresh primary
keys. -/
def commitBook (st : St) (u : UploadInput) (filePath : List String)
    (coverPath unpackedPath : Option (List String)) (cd : List ChapterData) :
    UploadResult × St :=
  let book : Book :=
    { id := st.nextBookId, ownerId := u.ownerId, title := u.fileName,
      filePath := filePath, coverPath := coverPath,
      unpackedPath := unpackedPath, fileHash := u.fileHash,
      fileSize := u.fileSize }
  let newChapters :=
    (withIndexFrom 0 cd).map fun p =>
      Chapter.mk (st.nextChapterId + p.1) book.id p.2.title p.2.order
        p.2.fileName p.2.sizeBytes
  (.created book.id,
    { st with
        books := st.books ++ [book]
        chapters := st.chapters ++ newChapters
        nextBookId := st.nextBookId + 1
        nextChapterId := st.nextChapterId + cd.length })

/-- `upload_book` (`books.py` lines 246-314).  Checks, in order: file
extension (case-insensitive), the storage quota, the per-owner duplicate
digest.  If the vault directory exists the first book row with the same
digest is reused (its paths and chapter metadata copied; the archive is not
parsed).  Otherwise the vault is created, the bytes copied in, and the
EPUB/PDF branch runs inside a `try` block whose handler removes the vault
and fails with 500; `unpack_and_parse_epub` never raises, so only the copy
and the PDF steps can reach that handler.  Finally the book and chapter
rows are committed. -/
def upload_book (st : St) (u : UploadInput) : UploadResult × St :=
  if !(strEndsWith (lowerStr u.fileName) ".epub" ||
      strEndsWith (lowerStr u.fileName) ".pdf") then
    (.invalidInput, st)
  else if MAX_STORAGE_BYTES < get_user_storage_usage u.ownerId st.books + u.fileSize then
    (.quotaExceeded, st)
  else if st.books.any (fun b => b.ownerId == u.ownerId && b.fileHash == u.fileHash) then
    (.duplicateBook, st)
  else
    let vaultPath := ["objects", u.fileHash]
    if st.vaults.contains u.fileHash then
      match st.books.find? (fun b => b.fileHash == u.fileHash) with
      | some existing =>
          let copied :=
            (st.chapters.filter (fun c => c.bookId == existing.id)).map
              fun c => ChapterData.mk c.title c.fileName c.order c.sizeBytes
          commitBook st u existing.filePath existing.coverPath
            existing.unpackedPath copied
      | none =>
          commitBook st u (vaultPath ++ [u.fileName]) none none []
    else
      let st1 := { st with vaults := u.fileHash :: st.vaults }
      if !u.copyOk then (.processingFailed, st)
      else
        let unpackedPath := some (vaultPath ++ ["unpacked"])
        if strEndsWith u.fileName ".epub" then
          let parsed := unpack_and_parse_epub u.archive vaultPath
          commitBook st1 u (vaultPath ++ [u.fileName]) parsed.2 unpackedPath
            parsed.1
        else if strEndsWith u.fileName ".pdf" then
          if !u.pdfOpenOk then (.processingFailed, st)
          else
            let cp :=
              if 0 < u.pdfPageCount then some (vaultPath ++ ["cover.png"])
              else none
            commitBook st1 u (vaultPath ++ [u.fileName]) cp unpackedPath []
        else
          commitBook st1 u (vaultPath ++ [u.fileName]) none unpackedPath []

/-! ### `delete_book` -/

inductive DeleteResult
  | deleted
  | notFound
  deriving DecidableEq, Repr

/-- `delete_book` (`books.py` lines 316-328): find the caller's book, delete
it (cascading to its chapters and progress rows), then remove the vault
directory when no book row with the same digest remains. -/
def delete_book (st : St) (userId bookId : Nat) : DeleteResult × St :=
  match st.books.find? (fun b => b.id == bookId && b.ownerId == userId) with
  | none => (.notFound, st)
  | some book =>
      let fileHash := book.fileHash
      let books2 := st.books.filter (fun b => !(b.id == bookId))
      let st2 :=
        { st with
            books := books2
            chapters := st.chapters.filter (fun c => !(c.bookId == bookId))
            progresses := st.progresses.filter (fun p => !(p.bookId == bookId)) }
      if (books2.filter (fun b => b.fileHash == fileHash)).length == 0 then
        (.deleted,
          { st2 with vaults := st2.vaults.filter (fun v => !(v == fileHash)) })
      else (.deleted, st2)

/-! ### ReaderRenderer (`get_content`) -/

inductive Method
  | GET
  | HEAD
  deriving DecidableEq, Repr

/-- The features of the HTML produced by `get_content`'s rendering
transformations. -/
structure RenderedHtml where
  hasViewport : Bool
  hasReaderCss : Bool
  hasReaderJs : Bool
  wrappedInViewer : Bool
  imgSrcs : List String
  imageHrefs : List String
  deriving DecidableEq, Repr

inductive ContentResult
  | headEmpty
  | notFound
  | serverError
  | page (r : RenderedHtml)
  deriving DecidableEq, Repr

/-- The image rewrite of `get_content`: references already starting with
`http` are kept; otherwise the reference is reduced to its final path
segment and rebuilt as an absolute authenticated URL embedding the path's
`book_id` and the caller's token. -/
def rewriteRef (base : String) (bookId : Nat) (tok : String) (src : String) :
    String :=
  if strStartsWith src "http" then src
  else
    let clean := lastSegment src
    s!"{base}/books/{bookId}/images/{clean}?token={tok}"

/-- The rendering transformations of `get_content`: ensure a viewport meta
tag, append the reader stylesheet and script, wrap the body in the viewer
container, and rewrite every image-like reference. -/
def renderChapter (h : ChapterHtml) (bookId : Nat) (tok base : String) :
    RenderedHtml :=
  { hasViewport := true
    hasReaderCss := true
    hasReaderJs := true
    wrappedInViewer := true
    imgSrcs := h.imgSrcs.map (rewriteRef base bookId tok)
    imageHrefs := h.imageHrefs.map (rewriteRef base bookId tok) }

/-- Reads a stored chapter file by path. -/
def lookupFile (st : St) (p : List String) : Option ChapterHtml :=
  (st.files.find? (fun q => q.1 == p)).map (fun q => q.2)

/-- `get_content` (`books.py` lines 380-424).  HEAD requests return an
empty body as the first statement of the handler, before any database
access.  Otherwise the chapter is looked up by `chapter_id` alone; a
missing chapter, an owner mismatch on the chapter's own book, or a missing
file yield 404.  A book row with no unpacked path would raise
(`Path(None)`), surfacing as a server error.  The path parameter `bookId`
is used only by the image rewrite. -/
def get_content (st : St) (bookId chapterId userId : Nat) (meth : Method)
    (tok base : String) : ContentResult :=
  if meth == .HEAD then .headEmpty
  else
    match st.chapters.find? (fun c => c.id == chapterId) with
    | none => .notFound
    | some ch =>
        match st.books.find? (fun b => b.id == ch.bookId) with
        | none => .serverError
        | some b =>
            if !(b.ownerId == userId) then .notFound
            else
              match b.unpackedPath with
              | none => .serverError
              | some up =>
                  match lookupFile st (up ++ [ch.fileName]) with
                  | none => .notFound
                  | some html => .page (renderChapter html bookId tok base)

/-! ### AssetGateway (`get_image`) -/

inductive ImageResult
  | forbidden
  | notFound
  | serverError
  | file (p : List String)
  deriving DecidableEq, Repr

/-- `get_image` (`books.py` lines 426-447): 403 unless the book exists and
belongs to the caller; the requested name is reduced to its basename and
joined to the book's `images` directory; a missing target is 404; a
resolved target whose rendered path does not start with the rendered images
directory is 403; otherwise the file at the resolved path is streamed. -/
def get_image (st : St) (bookId userId : Nat) (name : String) : ImageResult :=
  match st.books.find? (fun b => b.id == bookId) with
  | none => .forbidden
  | some book =>
      if !(book.ownerId == userId) then .forbidden
      else
        match book.unpackedPath with
        | none => .serverError
        | some up =>
            let imagesDir := up ++ ["images"]
            let target := imagesDir ++ [basename name]
            if !(pathExists st target) then .notFound
            else if !(strStartsWith (renderPath (resolveComponents target))
                (renderPath (resolveComponents imagesDir))) then .forbidden
            else .file (resolveComponents target)

/-! ### ReadingProgress (`get_progress`, `update_progress`) -/

/-- The row filter of the progress queries: match on the (user, book)
pair. -/
def progPred (u b : Nat) (p : Progress) : Bool :=
  p.userId == u && p.bookId == b

/-- Mutating the first progress row matching the (user, book) pair, as the
SQLAlchemy update of the fetched row does. -/
def updateFirstProgress (u b : Nat) (ci : Int) (pp : Rat) :
    List Progress → List Progress
  | [] => []
  | p :: ps =>
      if progPred u b p then
        { p with chapterIndex := ci, progressPercent := pp } :: ps
      else p :: updateFirstProgress u b ci pp ps

/-- `update_progress` (`books.py` lines 456-467): fetch the (user, book)
row; insert a new row if absent, otherwise overwrite its fields.  The
`ProgressUpdate` schema (`schemas.py`) imposes no range constraint on
`progress_percent`. -/
def update_progress (st : St) (userId bookId : Nat) (chapterIndex : Int)
    (progressPercent : Rat) : St :=
  match st.progresses.find? (progPred userId bookId) with
  | none =>
      { st with
          progresses :=
            st.progresses ++
              [⟨userId, bookId, chapterIndex, progressPercent⟩] }
  | some _ =>
      { st with
          progresses :=
            updateFirstProgress userId bookId chapterIndex progressPercent
              st.progresses }

/-- The `progress_percent` field of the `get_progress` response
(`books.py` lines 450-454): the stored row's value, or the default 0. -/
def get_progress (st : St) (userId bookId : Nat) : Rat :=
  match st.progresses.find? (progPred userId bookId) with
  | none => 0
  | some p => p.progressPercent

/-- Number of progress rows for a (user, book) pair. -/
def countProgress (ps : List Progress) (u b : Nat) : Nat :=
  (ps.filter (progPred u b)).length

/-! ### Concrete example states and inputs -/

/-- The empty application state. -/
def emptySt : St :=
  { books := [], chapters := [], progresses := [], vaults := [], files := [],
    disk := [], nextBookId := 0, nextChapterId := 0 }

/-- An EPUB archive whose `epub.read_epub` call raises: every parse step
after it is unreachable, so the parse as a whole fails. -/
def failingArchive : EpubArchive :=
  { zipOpenOk := true, planA := .notFound, planB := .notFound,
    planC := .notFound, readEpubOk := false, imageWriteOk := true,
    chapterWriteOk := true,
    spine := [.document none 5] }

/-- An upload of a fresh EPUB whose archive parse fails. -/
def c1upload : UploadInput :=
  { ownerId := 1, fileName := "b.epub", fileHash := "h", fileSize := 10,
    archive := failingArchive, copyOk := true, pdfOpenOk := true,
    pdfPageCount := 0 }

/-- A spine with two HTML documents separated by a non-document item. -/
def gappySpine : List SpineItem :=
  [.document none 5, .nonDocument, .document none 7]

/-- A spine consisting of three HTML documents. -/
def allDocSpine : List SpineItem :=
  [.document (some "Intro") 3, .document none 4, .document none 6]

/-- An archive where Plan A raises and Plan B finds a cover. -/
def planBArchive : EpubArchive :=
  { zipOpenOk := true, planA := .raises, planB := .found, planC := .notFound,
    readEpubOk := true, imageWriteOk := true, chapterWriteOk := true,
    spine := [.document none 5] }

/-- A healthy archive used for reuse-branch witnesses. -/
def okArchive : EpubArchive :=
  { zipOpenOk := true, planA := .found, planB := .notFound,
    planC := .notFound, readEpubOk := true, imageWriteOk := true,
    chapterWriteOk := true, spine := [.document none 5] }

/-- A book owned by user 1 with digest `"h"`. -/
def ownedBook : Book :=
  { id := 0, ownerId := 1, title := "b.epub",
    filePath := ["objects", "h", "b.epub"],
    coverPath := some ["objects", "h", "cover.jpg"],
    unpackedPath := some ["objects", "h", "unpacked"],
    fileHash := "h", fileSize := 10 }

/-- A state where user 1 already owns the digest-`"h"` book with one
chapter, and its vault exists. -/
def c3st : St :=
  { books := [ownedBook],
    chapters := [⟨0, 0, "Chapter 1", 0, "chapter_0.html", 5⟩],
    progresses := [], vaults := ["h"], files := [], disk := [],
    nextBookId := 1, nextChapterId := 1 }

/-- The same bytes uploaded again, by user 2. -/
def c3upload : UploadInput :=
  { ownerId := 2, fileName := "b.epub", fileHash := "h", fileSize := 10,
    archive := okArchive, copyOk := true, pdfOpenOk := true,
    pdfPageCount := 0 }

/-- The same bytes uploaded again by user 1 (the owner of `ownedBook`). -/
def c3dupUpload : UploadInput :=
  { ownerId := 1, fileName := "b.epub", fileHash := "h", fileSize := 10,
    archive := okArchive, copyOk := true, pdfOpenOk := true,
    pdfPageCount := 0 }

/-- A state where users 1 and 2 each own a book with digest `"h"` and the
vault exists. -/
def c4st : St :=
  { books := [ownedBook,
      { id := 1, ownerId := 2, title := "b.epub",
        filePath := ["objects", "h", "b.epub"], coverPath := none,
        unpackedPath := some ["objects", "h", "unpacked"],
        fileHash := "h", fileSize := 10 }],
    chapters := [], progresses := [], vaults := ["h"], files := [],
    disk := [], nextBookId := 2, nextChapterId := 0 }

/-- The book of the image-gateway state: user 7 owns book 1. -/
def c6book : Book :=
  { id := 1, ownerId := 7, title := "b.epub",
    filePath := ["v1", "b.epub"], coverPath := none,
    unpackedPath := some ["v1", "unpacked"], fileHash := "h1",
    fileSize := 1 }

/-- A state for the image gateway: user 7 owns book 1, whose images
directory holds `pic.jpg`. -/
def c6st : St :=
  { books := [c6book],
    chapters := [], progresses := [], vaults := ["h1"], files := [],
    disk := [["v1", "unpacked", "images", "pic.jpg"]],
    nextBookId := 2, nextChapterId := 0 }

/-- A book whose size equals the whole storage cap. -/
def c7book : Book :=
  { id := 0, ownerId := 1, title := "big.epub",
    filePath := ["objects", "g", "big.epub"], coverPath := none,
    unpackedPath := some ["objects", "g", "unpacked"], fileHash := "g",
    fileSize := 1024 * 1024 * 1024 }

/-- A state where user 1's single book already occupies the whole storage
cap. -/
def c7st : St :=
  { books := [c7book],
    chapters := [], progresses := [], vaults := ["g"], files := [],
    disk := [], nextBookId := 1, nextChapterId := 0 }

/-- One more byte uploaded by user 1 once the cap is reached. -/
def c7upload : UploadInput :=
  { ownerId := 1, fileName := "c.epub", fileHash := "h2", fileSize := 1,
    archive := okArchive, copyOk := true, pdfOpenOk := true,
    pdfPageCount := 0 }

/-- A state for the reader: chapter 5 belongs to book 1 owned by user 7,
and its chapter file holds one relative image reference. -/
def c10st : St :=
  { books := [c6book],
    chapters := [⟨5, 1, "Chapter 1", 0, "chapter_0.html", 9⟩],
    progresses := [], vaults := ["h1"],
    files := [(["v1", "unpacked", "chapter_0.html"],
      { hasViewport := false, imgSrcs := ["images/pic.jpg"],
        imageHrefs := [] })],
    disk := [["v1", "unpacked", "images", "pic.jpg"]],
    nextBookId := 2, nextChapterId := 6 }

/-- A state holding one progress row for user 3 on book 4. -/
def c9st : St :=
  { emptySt with progresses := [⟨3, 4, 0, 50⟩] }

/-! ### Helper lemmas -/

theorem dropLast_snoc {α} (xs : List α) (a : α) : (xs ++ [a]).dropLast = xs := by
  simp

theorem resolve_snoc (xs : List String) (c : String) :
    resolveComponents (xs ++ [c]) =
      if c = "" then resolveComponents xs
      else if c = "." then resolveComponents xs
      else if c = ".." then (resolveComponents xs).dropLast
      else resolveComponents xs ++ [c] := by
  simp [resolveComponents, List.foldl_append]

theorem renderPath_snoc (xs : List String) (c : String) :
    renderPath (xs ++ [c]) = renderPath xs ++ "/" ++ c := by
  simp [renderPath, List.foldl_append]

theorem strData_append (s t : String) : (s ++ t).data = s.data ++ t.data := by
  cases s
  cases t
  rfl

theorem isPrefixOf_length_le {α} [BEq α] :
    ∀ (l₁ l₂ : List α), l₁.isPrefixOf l₂ = true → l₁.length ≤ l₂.length
  | [], _, _ => Nat.zero_le _
  | _ :: _, [], h => by simp [List.isPrefixOf] at h
  | a :: as, b :: bs, h => by
      simp only [List.isPrefixOf, Bool.and_eq_true] at h
      simpa using isPrefixOf_length_le as bs h.2

theorem isPrefixOf_eq_false_of_lt {α} [BEq α] (l₁ l₂ : List α)
    (h : l₂.length < l₁.length) : l₁.isPrefixOf l₂ = false := by
  cases hp : l₁.isPrefixOf l₂ with
  | false => rfl
  | true => exact absurd (isPrefixOf_length_le l₁ l₂ hp) (Nat.not_le.mpr h)

theorem strStartsWith_drop_images (X : List String) :
    strStartsWith (renderPath X) (renderPath (X ++ ["images"])) = false := by
  unfold strStartsWith
  apply isPrefixOf_eq_false_of_lt
  rw [renderPath_snoc]
  have h1 : "/".data = ['/'] := rfl
  have h2 : "images".data = ['i', 'm', 'a', 'g', 'e', 's'] := rfl
  simp [strData_append, h1, h2]

theorem find?_append_of_none {α} (p : α → Bool) :
    ∀ (l₁ l₂ : List α), l₁.find? p = none → (l₁ ++ l₂).find? p = l₂.find? p := by
  intro l₁ l₂ h
  induction l₁ with
  | nil => rfl
  | cons a t ih =>
      cases hp : p a with
      | true =>
          rw [List.find?_cons_of_pos _ hp] at h
          exact absurd h (by simp)
      | false =>
          rw [List.find?_cons_of_neg _ (by simp [hp])] at h
          rw [List.cons_append, List.find?_cons_of_neg _ (by simp [hp])]
          exact ih h

theorem filter_eq_nil_of_find?_none {α} (p : α → Bool) :
    ∀ (l : List α), l.find? p = none → l.filter p = [] := by
  intro l h
  induction l with
  | nil => rfl
  | cons a t ih =>
      simp only [List.find?] at h
      cases hp : p a with
      | true => rw [hp] at h; exact absurd h (by simp)
      | false =>
          rw [hp] at h
          simp [List.filter, hp, ih h]

theorem countProgress_append (ps qs : List Progress) (u b : Nat) :
    countProgress (ps ++ qs) u b = countProgress ps u b + countProgress qs u b := by
  simp [countProgress, List.filter_append]

theorem progPred_update (u b : Nat) (ci : Int) (pp : Rat) (p : Progress) :
    progPred u b { p with chapterIndex := ci, progressPercent := pp } =
      progPred u b p := rfl

theorem countProgress_updateFirst (u b : Nat) (ci : Int) (pp : Rat) :
    ∀ ps, countProgress (updateFirstProgress u b ci pp ps) u b = countProgress ps u b := by
  intro ps
  induction ps with
  | nil => rfl
  | cons p t ih =>
      cases hp : progPred u b p with
      | true =>
          simp only [updateFirstProgress, hp, if_true, countProgress,
            List.filter, progPred_update]
          simp
      | false =>
          simp only [updateFirstProgress, hp, Bool.false_eq_true, if_false]
          simp only [countProgress, List.filter, hp] at ih ⊢
          simpa using ih

theorem find?_updateFirst (u b : Nat) (ci : Int) (pp : Rat) :
    ∀ ps (q : Progress),
      ps.find? (progPred u b) = some q →
      (updateFirstProgress u b ci pp ps).find? (progPred u b) =
        some { q with chapterIndex := ci, progressPercent := pp } := by
  intro ps q h
  induction ps with
  | nil => exact absurd h (by simp)
  | cons p t ih =>
      cases hp : progPred u b p with
      | true =>
          rw [List.find?_cons_of_pos t hp] at h
          simp only [Option.some.injEq] at h
          subst h
          simp only [updateFirstProgress, hp, if_true]
          rw [List.find?_cons_of_pos t (by rw [progPred_update]; exact hp)]
      | false =>
          rw [List.find?_cons_of_neg t (by simp [hp])] at h
          simp only [updateFirstProgress, hp, Bool.false_eq_true, if_false]
          rw [List.find?_cons_of_neg _ (by simp [hp])]
          exact ih h

theorem countProgress_pos_of_find? (u b : Nat) :
    ∀ ps (q : Progress),
      ps.find? (progPred u b) = some q →
      1 ≤ countProgress ps u b := by
  intro ps q h
  induction ps with
  | nil => exact absurd h (by simp)
  | cons p t ih =>
      cases hp : progPred u b p with
      | true => simp [countProgress, List.filter, hp]
      | false =>
          rw [List.find?_cons_of_neg t (by simp [hp])] at h
          simp only [countProgress, List.filter, hp]
          exact ih h

theorem withIndexFrom_orders :
    ∀ (sp : List SpineItem) (n : Nat), (∀ it ∈ sp, isDocumentItem it = true) →
      ((withIndexFrom n sp).filterMap spineStep).map ChapterData.order =
        List.range' n sp.length := by
  intro sp
  induction sp with
  | nil => intro n _; rfl
  | cons it rest ih =>
      intro n h
      have hdoc := h it (by simp)
      cases it with
      | document hd sz =>
          have hrec := ih (n + 1) (fun x hx => h x (by simp [hx]))
          simp only [withIndexFrom, List.filterMap, spineStep, List.map,
            List.length_cons]
          rw [hrec]
          rfl
      | nonDocument => simp [isDocumentItem] at hdoc
      | missing => simp [isDocumentItem] at hdoc

/-! ### Claims -/

/-- Claim C2 (counterexample): a spine holding two HTML documents separated
by a non-document item yields chapter order values `[0, 2]`, which is not
the dense set `0..1`, so denseness does not hold "regardless of
non-document spine items". -/
theorem claim_C2_counterexample :
    (gappySpine.filter isDocumentItem).length = 2 ∧
    (processSpine gappySpine).map ChapterData.order = [0, 2] ∧
    (processSpine gappySpine).map ChapterData.order ≠ List.range 2 := by
  decide

/-- Claim C2 (amended): order values are the spine positions of the
document items; when every spine entry resolves to an HTML document, the
order values of a parsed EPUB with N spine entries are exactly 0..N-1 in
spine order. -/
theorem claim_C2 (sp : List SpineItem)
    (h : ∀ it ∈ sp, isDocumentItem it = true) :
    (processSpine sp).map ChapterData.order = List.range sp.length := by
  rw [processSpine, withIndexFrom_orders sp 0 h, List.range_eq_range']

/-- Witness for C2 at a concrete all-document spine. -/
theorem claim_C2_witness :
    (processSpine allDocSpine).map ChapterData.order =
      List.range allDocSpine.length :=
  claim_C2 allDocSpine (by decide)

/-- Claim C7: an upload whose size pushes the owner's cumulative usage over
the cap is rejected with `QuotaExceeded` and the state is unchanged — no
vault and no book row is created. -/
theorem claim_C7 (st : St) (u : UploadInput)
    (hvalid : (strEndsWith (lowerStr u.fileName) ".epub" ||
      strEndsWith (lowerStr u.fileName) ".pdf") = true)
    (hquota : MAX_STORAGE_BYTES <
      get_user_storage_usage u.ownerId st.books + u.fileSize) :
    upload_book st u = (.quotaExceeded, st) := by
  unfold upload_book
  rw [hvalid]
  simp only [Bool.not_true, Bool.false_eq_true, if_false]
  rw [if_pos hquota]

/-- Witness for C7: one more byte over a cap-filling library is rejected
and the state is untouched. -/
theorem claim_C7_witness : upload_book c7st c7upload = (.quotaExceeded, c7st) :=
  claim_C7 c7st c7upload (by decide) (by decide)

/-- Claim C8 (counterexample): a HEAD request for a chapter id that does
not exist still returns the empty 200 body — the handler short-circuits
before the existence check, so "only the existence and auth checks
performed" fails on the existence half. -/
theorem claim_C8_counterexample :
    get_content emptySt 1 99 7 .HEAD "t" "b" = .headEmpty ∧
    emptySt.chapters.find? (fun c => c.id == 99) = none ∧
    ContentResult.headEmpty ≠ ContentResult.notFound := by
  decide

/-- Claim C8 (amended): every HEAD request by an authenticated caller
returns an empty body with none of the rendering transformations run; the
handler short-circuits immediately after authentication, before even the
chapter-existence lookup. -/
theorem claim_C8 (st : St) (bookId chapterId userId : Nat) (tok base : String) :
    get_content st bookId chapterId userId .HEAD tok base = .headEmpty := rfl

/-- Claim C9 (counterexample): a PUT with `progress_percent = 150` is
accepted, stored and returned unchanged — the value is not constrained to
[0, 100] anywhere. -/
theorem claim_C9_counterexample :
    get_progress (update_progress emptySt 3 4 2 150) 3 4 = 150 ∧
    countProgress (update_progress emptySt 3 4 2 150).progresses 3 4 = 1 ∧
    ¬((0 : Rat) ≤ 150 ∧ (150 : Rat) ≤ 100) := by
  decide

/-- Claim C9 (amended): updates upsert — starting from a state with at most
one progress row for the (user, book) pair, after an accepted PUT exactly
one row exists for the pair, and the stored/returned `progressPercent` is
exactly the submitted value (no range constraint is enforced). -/
theorem claim_C9 (st : St) (u b : Nat) (ci : Int) (pp : Rat)
    (hw : countProgress st.progresses u b ≤ 1) :
    countProgress (update_progress st u b ci pp).progresses u b = 1 ∧
    get_progress (update_progress st u b ci pp) u b = pp := by
  cases hf : st.progresses.find? (progPred u b) with
  | none =>
      have hzero : countProgress st.progresses u b = 0 := by
        unfold countProgress
        rw [filter_eq_nil_of_find?_none _ _ hf]
        rfl
      constructor
      · simp only [update_progress, hf]
        rw [countProgress_append, hzero]
        simp [countProgress, List.filter, progPred]
      · simp only [update_progress, get_progress, hf]
        rw [find?_append_of_none _ _ _ hf]
        simp [List.find?, progPred]
  | some q =>
      have h1 := countProgress_updateFirst u b ci pp st.progresses
      have h2 := find?_updateFirst u b ci pp st.progresses q hf
      have h3 := countProgress_pos_of_find? u b st.progresses q hf
      constructor
      · simp only [update_progress, hf]
        rw [h1]
        omega
      · simp only [update_progress, get_progress, hf]
        rw [h2]

/-- Witness for C9 at a state holding one row for the pair. -/
theorem claim_C9_witness :
    countProgress (update_progress c9st 3 4 2 75).progresses 3 4 = 1 ∧
    get_progress (update_progress c9st 3 4 2 75) 3 4 = 75 :=
  claim_C9 c9st 3 4 2 75 (by decide)

theorem contains_filter_ne_self :
    ∀ (l : List String) (h : String),
      (l.filter (fun v => !(v == h))).contains h = false := by
  intro l h
  induction l with
  | nil => rfl
  | cons a t ih =>
      by_cases ha : a = h
      · subst ha
        simp [List.filter, ih]
      · simp only [List.filter]
        have : (a == h) = false := by simp [ha]
        simp [this, List.contains_cons, ih, Ne.symm ha]

/-- Claim C4: for a delete of a book owned by the caller, the request
succeeds; if another book row with the same digest remains after the
delete, the vault list is unchanged; if none remains, the digest's vault is
no longer on disk. -/
theorem claim_C4 (st : St) (userId bookId : Nat) (b : Book)
    (hfind : st.books.find? (fun x => x.id == bookId && x.ownerId == userId) =
      some b) :
    (delete_book st userId bookId).1 = .deleted ∧
    (((st.books.filter (fun x => !(x.id == bookId))).filter
        (fun x => x.fileHash == b.fileHash)).length ≠ 0 →
      (delete_book st userId bookId).2.vaults = st.vaults) ∧
    (((st.books.filter (fun x => !(x.id == bookId))).filter
        (fun x => x.fileHash == b.fileHash)).length = 0 →
      (delete_book st userId bookId).2.vaults.contains b.fileHash = false) := by
  refine ⟨?_, ?_, ?_⟩
  · simp only [delete_book, hfind]
    split <;> rfl
  · intro hne
    simp only [delete_book, hfind]
    split
    · next hcond => exact absurd (by simpa using hcond) hne
    · rfl
  · intro heq
    simp only [delete_book, hfind]
    split
    · next => exact contains_filter_ne_self st.vaults b.fileHash
    · next hcond => exact absurd heq (by simpa using hcond)

/-- Witness for C4: user 1 deletes their book while user 2 still owns a
book with the same digest, so the vault survives. -/
theorem claim_C4_witness :
    (delete_book c4st 1 0).1 = .deleted ∧
    (((c4st.books.filter (fun x => !(x.id == 0))).filter
        (fun x => x.fileHash == ownedBook.fileHash)).length ≠ 0 →
      (delete_book c4st 1 0).2.vaults = c4st.vaults) ∧
    (((c4st.books.filter (fun x => !(x.id == 0))).filter
        (fun x => x.fileHash == ownedBook.fileHash)).length = 0 →
      (delete_book c4st 1 0).2.vaults.contains ownedBook.fileHash = false) :=
  claim_C4 c4st 1 0 ownedBook (by decide)

/-- Claim C5: cover resolution tries the three strategies in order; the
first one that extracts a cover wins; an exception inside Plan A or Plan B
does not abort the chain; if no strategy succeeds, no cover is produced and
the chapter parse still returns its chapters, unaffected by the cover
outcome. -/
theorem claim_C5 (ar : EpubArchive) (vp : List String)
    (hz : ar.zipOpenOk = true) :
    (ar.planA = .found → find_epub_cover ar vp = some (vp ++ ["cover.jpg"])) ∧
    (ar.planA ≠ .found → ar.planB = .found →
      find_epub_cover ar vp = some (vp ++ ["cover.jpg"])) ∧
    (ar.planA ≠ .found → ar.planB ≠ .found → ar.planC = .found →
      find_epub_cover ar vp = some (vp ++ ["cover.jpg"])) ∧
    (ar.planA ≠ .found → ar.planB ≠ .found → ar.planC ≠ .found →
      find_epub_cover ar vp = none) ∧
    (ar.readEpubOk = true → ar.imageWriteOk = true → ar.chapterWriteOk = true →
      unpack_and_parse_epub ar vp =
        (processSpine ar.spine, find_epub_cover ar vp)) := by
  refine ⟨?_, ?_, ?_, ?_, ?_⟩
  · intro hA
    simp [find_epub_cover, hz, hA]
  · intro hA hB
    cases hA2 : ar.planA with
    | found => exact absurd hA2 hA
    | notFound => simp [find_epub_cover, hz, hA2, hB]
    | raises => simp [find_epub_cover, hz, hA2, hB]
  · intro hA hB hC
    cases hA2 : ar.planA <;> cases hB2 : ar.planB <;>
      first
        | exact absurd hA2 hA
        | exact absurd hB2 hB
        | simp [find_epub_cover, hz, hA2, hB2, hC]
  · intro hA hB hC
    cases hA2 : ar.planA <;> cases hB2 : ar.planB <;> cases hC2 : ar.planC <;>
      first
        | exact absurd hA2 hA
        | exact absurd hB2 hB
        | exact absurd hC2 hC
        | simp [find_epub_cover, hz, hA2, hB2, hC2]
  · intro h1 h2 h3
    simp [unpack_and_parse_epub, h1, h2, h3]

/-- Witness for C5: Plan A raises, Plan B finds a cover — the chain still
produces the cover. -/
theorem claim_C5_witness :
    find_epub_cover planBArchive ["objects", "h"] =
      some ["objects", "h", "cover.jpg"] :=
  (claim_C5 planBArchive ["objects", "h"] (by decide)).2.1 (by decide)
    (by decide)

/-- Claim C10: a GET on the content endpoint serves the chapter found by
`chapter_id` alone — the path's `book_id` is not compared against the
chapter's own book — while the rewritten image URLs embed the path's
`book_id`. -/
theorem claim_C10 (st : St) (bookId chapterId userId : Nat) (tok base : String)
    (ch : Chapter)
    (hch : st.chapters.find? (fun c => c.id == chapterId) = some ch)
    (b : Book) (hb : st.books.find? (fun x => x.id == ch.bookId) = some b)
    (hown : b.ownerId = userId)
    (up : List String) (hup : b.unpackedPath = some up)
    (html : ChapterHtml)
    (hfile : lookupFile st (up ++ [ch.fileName]) = some html) :
    get_content st bookId chapterId userId .GET tok base =
      .page (renderChapter html bookId tok base) ∧
    (renderChapter html bookId tok base).imgSrcs =
      html.imgSrcs.map (rewriteRef base bookId tok) := by
  constructor
  · simp [get_content, hch, hb, hown, hup, hfile]
  · rfl

/-- Witness for C10: chapter 5 belongs to book 1, yet the request uses
path book id 42 and is served, with image URLs built from 42. -/
theorem claim_C10_witness :
    get_content c10st 42 5 7 .GET "tkn" "http://h" =
      .page (renderChapter ⟨false, ["images/pic.jpg"], []⟩ 42 "tkn" "http://h") ∧
    (renderChapter ⟨false, ["images/pic.jpg"], []⟩ 42 "tkn" "http://h").imgSrcs =
      ["images/pic.jpg"].map (rewriteRef "http://h" 42 "tkn") :=
  claim_C10 c10st 42 5 7 "tkn" "http://h"
    ⟨5, 1, "Chapter 1", 0, "chapter_0.html", 9⟩ (by decide)
    c6book (by decide) (by decide)
    ["v1", "unpacked"] (by decide)
    ⟨false, ["images/pic.jpg"], []⟩ (by decide)

theorem chapterMeta_commit (k bid : Nat) :
    ∀ (cd : List ChapterData) (n : Nat),
      ((withIndexFrom n cd).map (fun p =>
          Chapter.mk (k + p.1) bid p.2.title p.2.order p.2.fileName
            p.2.sizeBytes)).map
          (fun c => (c.title, c.order, c.fileName, c.sizeBytes)) =
        cd.map (fun d => (d.title, d.order, d.fileName, d.sizeBytes)) := by
  intro cd
  induction cd with
  | nil => intro n; rfl
  | cons d rest ih =>
      intro n
      simp only [withIndexFrom, List.map]
      rw [ih (n + 1)]

/-- Claim C1 (counterexample): an EPUB upload into a fresh vault whose
archive parse fails is NOT rolled back — the parse yields empty chapters
and no cover, but `upload_book` still succeeds, commits a book row and
keeps the vault. -/
theorem claim_C1_counterexample :
    unpack_and_parse_epub c1upload.archive ["objects", "h"] = ([], none) ∧
    (upload_book emptySt c1upload).1 = .created 0 ∧
    (upload_book emptySt c1upload).1 ≠ .processingFailed ∧
    (upload_book emptySt c1upload).2.books ≠ [] ∧
    (upload_book emptySt c1upload).2.vaults = ["h"] := by
  decide

/-- Claim C1 (amended): when the vault does not exist and any step of the
archive parse raises, the parse fails internally yielding empty chapters
and no cover, but the exception is swallowed inside
`unpack_and_parse_epub`: the upload succeeds, a book row with no chapters
and no cover is committed, and the vault directory is kept.  (Rollback with
`ProcessingFailed` happens only for failures of the file copy or of the
PDF branch.) -/
theorem claim_C1 (st : St) (u : UploadInput)
    (hvalid : strEndsWith (lowerStr u.fileName) ".epub" = true)
    (hepub : strEndsWith u.fileName ".epub" = true)
    (hquota : ¬(MAX_STORAGE_BYTES <
      get_user_storage_usage u.ownerId st.books + u.fileSize))
    (hdup : (st.books.any (fun b =>
      b.ownerId == u.ownerId && b.fileHash == u.fileHash)) = false)
    (hvault : st.vaults.contains u.fileHash = false)
    (hcopy : u.copyOk = true)
    (hfail : (u.archive.readEpubOk && u.archive.imageWriteOk &&
      u.archive.chapterWriteOk) = false) :
    (upload_book st u).1 = .created st.nextBookId ∧
    (upload_book st u).2.chapters = st.chapters ∧
    (upload_book st u).2.vaults = u.fileHash :: st.vaults ∧
    (upload_book st u).2.books = st.books ++
      [⟨st.nextBookId, u.ownerId, u.fileName,
        ["objects", u.fileHash, u.fileName], none,
        some ["objects", u.fileHash, "unpacked"], u.fileHash, u.fileSize⟩] := by
  have hparse : unpack_and_parse_epub u.archive ["objects", u.fileHash] =
      ([], none) := by
    unfold unpack_and_parse_epub
    rw [hfail]
    rfl
  simp only [upload_book, hvalid, hepub, hdup, hvault, hcopy, hparse, hquota,
    Bool.true_or, Bool.not_true, Bool.false_eq_true, Bool.not_false,
    if_false, if_true, ite_false, ite_true, commitBook, withIndexFrom,
    List.map, List.append_nil, List.length_nil, Nat.add_zero]
  exact ⟨trivial, trivial, trivial, rfl⟩

/-- Witness for C1 at a concrete failing upload. -/
theorem claim_C1_witness :
    (upload_book emptySt c1upload).1 = .created emptySt.nextBookId ∧
    (upload_book emptySt c1upload).2.chapters = emptySt.chapters ∧
    (upload_book emptySt c1upload).2.vaults =
      c1upload.fileHash :: emptySt.vaults ∧
    (upload_book emptySt c1upload).2.books = emptySt.books ++
      [⟨emptySt.nextBookId, c1upload.ownerId, c1upload.fileName,
        ["objects", c1upload.fileHash, c1upload.fileName], none,
        some ["objects", c1upload.fileHash, "unpacked"], c1upload.fileHash,
        c1upload.fileSize⟩] :=
  claim_C1 emptySt c1upload (by decide) (by decide) (by decide) (by decide)
    (by decide) (by decide) (by decide)

theorem upload_reuse (st : St) (u : UploadInput) (ex : Book)
    (hvalid : strEndsWith (lowerStr u.fileName) ".epub" = true)
    (hquota : ¬(MAX_STORAGE_BYTES <
      get_user_storage_usage u.ownerId st.books + u.fileSize))
    (hdup : (st.books.any (fun b =>
      b.ownerId == u.ownerId && b.fileHash == u.fileHash)) = false)
    (hvault : st.vaults.contains u.fileHash = true)
    (hex : st.books.find? (fun b => b.fileHash == u.fileHash) = some ex) :
    upload_book st u =
      commitBook st u ex.filePath ex.coverPath ex.unpackedPath
        ((st.chapters.filter (fun c => c.bookId == ex.id)).map
          (fun c => ChapterData.mk c.title c.fileName c.order c.sizeBytes)) := by
  simp only [upload_book, hvalid, hquota, hdup, hvault, hex, Bool.true_or,
    Bool.not_true, Bool.false_eq_true, if_false, if_true, ite_false,
    ite_true]

/-- Claim C3: an upload whose digest the same owner already has is rejected
as `DuplicateBook` with the state unchanged; the same bytes uploaded by a
different owner succeed, create a second book row, reuse the existing
vault (no new vault appears) and copy the existing chapter metadata, and
the archive content is never parsed — the result is identical for every
possible archive. -/
theorem claim_C3 (st : St) (u : UploadInput)
    (hvalid : strEndsWith (lowerStr u.fileName) ".epub" = true)
    (hquota : ¬(MAX_STORAGE_BYTES <
      get_user_storage_usage u.ownerId st.books + u.fileSize)) :
    ((st.books.any (fun b =>
        b.ownerId == u.ownerId && b.fileHash == u.fileHash)) = true →
      upload_book st u = (.duplicateBook, st)) ∧
    (∀ ex : Book,
      (st.books.any (fun b =>
        b.ownerId == u.ownerId && b.fileHash == u.fileHash)) = false →
      st.vaults.contains u.fileHash = true →
      st.books.find? (fun b => b.fileHash == u.fileHash) = some ex →
      (upload_book st u).1 = .created st.nextBookId ∧
      (upload_book st u).2.books = st.books ++
        [⟨st.nextBookId, u.ownerId, u.fileName, ex.filePath, ex.coverPath,
          ex.unpackedPath, u.fileHash, u.fileSize⟩] ∧
      (upload_book st u).2.vaults = st.vaults ∧
      ((upload_book st u).2.chapters.drop st.chapters.length).map
          (fun c => (c.title, c.order, c.fileName, c.sizeBytes)) =
        (st.chapters.filter (fun c => c.bookId == ex.id)).map
          (fun c => (c.title, c.order, c.fileName, c.sizeBytes)) ∧
      (∀ a : EpubArchive,
        upload_book st { u with archive := a } = upload_book st u)) := by
  constructor
  · intro hdup
    simp only [upload_book, hvalid, hquota, hdup, Bool.true_or,
      Bool.not_true, Bool.false_eq_true, if_false, if_true, ite_false,
      ite_true]
  · intro ex hdup hvault hex
    have hre := upload_reuse st u ex hvalid hquota hdup hvault hex
    refine ⟨?_, ?_, ?_, ?_, ?_⟩
    · rw [hre]
      rfl
    · rw [hre]
      rfl
    · rw [hre]
      rfl
    · rw [hre]
      simp only [commitBook]
      rw [List.drop_left]
      rw [chapterMeta_commit st.nextChapterId st.nextBookId _ 0,
        List.map_map]
      rfl
    · intro a
      have hre2 := upload_reuse st { u with archive := a } ex hvalid hquota
        hdup hvault hex
      rw [hre2, hre]
      rfl

/-- Witness for C3: user 1 already owns digest `"h"`; their re-upload is
rejected, while user 2's upload of the same bytes succeeds and reuses the
vault. -/
theorem claim_C3_witness :
    upload_book c3st c3dupUpload = (.duplicateBook, c3st) ∧
    (upload_book c3st c3upload).1 = .created c3st.nextBookId ∧
    (upload_book c3st c3upload).2.vaults = c3st.vaults :=
  ⟨(claim_C3 c3st c3dupUpload (by decide) (by decide)).1 (by decide),
    ((claim_C3 c3st c3upload (by decide) (by decide)).2 ownedBook (by decide)
      (by decide) (by decide)).1,
    ((claim_C3 c3st c3upload (by decide) (by decide)).2 ownedBook (by decide)
      (by decide) (by decide)).2.2.1⟩

/-- Claim C6 (counterexample): a request whose name contains a path
separator is not always rejected — `"sub/pic.jpg"` is reduced to its
basename, which exists in the images directory, and the file is served
with 200 rather than Forbidden/NotFound.  (The served file still lies
within the images directory.) -/
theorem claim_C6_counterexample :
    ("sub/pic.jpg".data.contains '/') = true ∧
    get_image c6st 1 7 "sub/pic.jpg" =
      .file ["v1", "unpacked", "images", "pic.jpg"] ∧
    get_image c6st 1 7 "sub/pic.jpg" ≠ .forbidden ∧
    get_image c6st 1 7 "sub/pic.jpg" ≠ .notFound := by
  decide

/-- Claim C6 (amended): names with path separators are reduced to their
basename rather than rejected, so such a request may be served with 200
when the basename exists; but every file the endpoint ever serves lies
within the owned book's images directory — the served path is the resolved
images directory itself or one honest (non-dot) component directly inside
it; an escaping basename (`".."`) is answered with Forbidden, a missing one
with NotFound. -/
theorem claim_C6 (st : St) (bookId userId : Nat) (name : String)
    (p : List String)
    (hserve : get_image st bookId userId name = .file p) :
    ∃ b, st.books.find? (fun x => x.id == bookId) = some b ∧
      b.ownerId = userId ∧
      ∃ up, b.unpackedPath = some up ∧
        (p = resolveComponents up ++ ["images"] ∨
          ∃ c, c ≠ "" ∧ c ≠ "." ∧ c ≠ ".." ∧
            p = resolveComponents up ++ ["images", c]) := by
  simp only [get_image] at hserve
  split at hserve
  · exact absurd hserve (by simp)
  next b hb =>
    split at hserve
    · exact absurd hserve (by simp)
    next hown =>
      split at hserve
      · exact absurd hserve (by simp)
      next up hup =>
        split at hserve
        · exact absurd hserve (by simp)
        next hex =>
          split at hserve
          · exact absurd hserve (by simp)
          next hsw =>
            simp only [ImageResult.file.injEq] at hserve
            have hown2 : b.ownerId = userId := by simpa using hown
            have hsw2 : strStartsWith
                (renderPath (resolveComponents
                  (up ++ ["images"] ++ [basename name])))
                (renderPath (resolveComponents (up ++ ["images"]))) = true := by
              simpa using hsw
            have hR : resolveComponents (up ++ ["images"]) =
                resolveComponents up ++ ["images"] := by
              rw [resolve_snoc]
              rw [if_neg (by decide), if_neg (by decide), if_neg (by decide)]
            refine ⟨b, hb, hown2, up, hup, ?_⟩
            by_cases h1 : basename name = ""
            · left
              rw [← hserve, resolve_snoc, if_pos h1, hR]
            by_cases h2 : basename name = "."
            · left
              rw [← hserve, resolve_snoc, if_neg h1, if_pos h2, hR]
            by_cases h3 : basename name = ".."
            · exfalso
              rw [resolve_snoc, if_neg h1, if_neg h2, if_pos h3, hR,
                dropLast_snoc, strStartsWith_drop_images] at hsw2
              exact absurd hsw2 (by simp)
            · right
              refine ⟨basename name, h1, h2, h3, ?_⟩
              rw [← hserve, resolve_snoc, if_neg h1, if_neg h2, if_neg h3, hR,
                List.append_assoc]
              rfl

/-- Witness for C6: the served path for the separator-containing name is
inside the images directory. -/
theorem claim_C6_witness :
    ∃ b, c6st.books.find? (fun x => x.id == 1) = some b ∧
      b.ownerId = 7 ∧
      ∃ up, b.unpackedPath = some up ∧
        (["v1", "unpacked", "images", "pic.jpg"] =
            resolveComponents up ++ ["images"] ∨
          ∃ c, c ≠ "" ∧ c ≠ "." ∧ c ≠ ".." ∧
            ["v1", "unpacked", "images", "pic.jpg"] =
              resolveComponents up ++ ["images", c]) :=
  claim_C6 c6st 1 7 "sub/pic.jpg" ["v1", "unpacked", "images", "pic.jpg"]
    (by decide)

end XhiBackend
